import Mathlib

/-!
Verification of the homography / paper-detection core of the
`homography_opencv_plugin` C library (`homography_api.cpp`).

Shallow embedding conventions:
* C `float` / `double` values are embedded as rationals (`ℚ`);
* C `int` values are embedded as `ℤ`;
* external OpenCV / cmath calls (`cv::findHomography`, `cv::ORB`,
  `cv::solvePnP`, `std::sqrt`, `std::atan2`, the contour pipeline) are
  oracles bundled in an `Ext` record and passed explicitly: the library
  treats them as black boxes, so the theorems quantify over them;
* zero-initialised C structs (`Result r = {}`) become records whose
  fields start at the corresponding zero values.
-/

namespace Homography

/-- A 2-D point with rational coordinates (embedding of `cv::Point2f`). -/
structure Point2 where
  x : ℚ
  y : ℚ
deriving DecidableEq, Repr

/-- Signed cross product at `o` of the vectors `o→a` and `o→b`,
exactly the `cross_product` lambda of `homography_api.cpp`. -/
def cross_product (o a b : Point2) : ℚ :=
  (a.x - o.x) * (b.y - o.y) - (a.y - o.y) * (b.x - o.x)

/-- Embedding of `is_convex_quadrilateral` (and of the identical inline
convexity test in `compute_homography_internal` /
`hg_find_homography_from_points`): a list of points is accepted iff it
has exactly four points and the four cyclic signed cross products all
share a strict sign. -/
def is_convex_quadrilateral : List Point2 → Bool
  | [p0, p1, p2, p3] =>
    let cp1 := cross_product p0 p1 p2
    let cp2 := cross_product p1 p2 p3
    let cp3 := cross_product p2 p3 p0
    let cp4 := cross_product p3 p0 p1
    (decide (0 < cp1) && decide (0 < cp2) && decide (0 < cp3) && decide (0 < cp4)) ||
    (decide (cp1 < 0) && decide (cp2 < 0) && decide (cp3 < 0) && decide (cp4 < 0))
  | _ => false

/-- The four cyclic cross products of a quadrilateral, as a list. -/
def crossList (p0 p1 p2 p3 : Point2) : List ℚ :=
  [cross_product p0 p1 p2, cross_product p1 p2 p3,
   cross_product p2 p3 p0, cross_product p3 p0 p1]

/-- Embedding of the aspect-distortion test shared by
`compute_homography_internal` (lines 198-207) and
`hg_find_homography_from_points` (lines 473-482):
`aspect_ratio = top_edge / left_edge`, `original_aspect = w / h`,
`aspect_distortion = aspect_ratio / original_aspect`, accepted unless
`aspect_distortion < 0.3 || aspect_distortion > 3.0`. -/
def aspect_distortion_ok (top_edge left_edge w h : ℚ) : Bool :=
  let aspect_ratio := top_edge / left_edge
  let original_aspect := w / h
  let aspect_distortion := aspect_ratio / original_aspect
  !(decide (aspect_distortion < 3/10) || decide (3 < aspect_distortion))

/-- Index of the first minimum among four values, with the update rule of
`std::min_element` (update only on a strictly smaller element). -/
def minElemIdx4 (v0 v1 v2 v3 : ℚ) : ℕ :=
  if v1 < v0 then
    (if v2 < v1 then (if v3 < v2 then 3 else 2) else (if v3 < v1 then 3 else 1))
  else
    (if v2 < v0 then (if v3 < v2 then 3 else 2) else (if v3 < v0 then 3 else 0))

/-- Index of the first maximum among four values, with the update rule of
`std::max_element` (update only on a strictly larger element). -/
def maxElemIdx4 (v0 v1 v2 v3 : ℚ) : ℕ :=
  if v0 < v1 then
    (if v1 < v2 then (if v2 < v3 then 3 else 2) else (if v1 < v3 then 3 else 1))
  else
    (if v0 < v2 then (if v2 < v3 then 3 else 2) else (if v0 < v3 then 3 else 0))

/-- Selects one of four points by index (list indexing into a 4-vector). -/
def pick4 (p0 p1 p2 p3 : Point2) : ℕ → Point2
  | 0 => p0
  | 1 => p1
  | 2 => p2
  | _ => p3

/-- Embedding of `order_points_clockwise`: for a 4-point list, returns
`[argmin (x+y), argmin (y-x), argmax (x+y), argmax (y-x)]` (top-left,
top-right, bottom-right, bottom-left); any other length is returned
unchanged. -/
def order_points_clockwise : List Point2 → List Point2
  | [p0, p1, p2, p3] =>
    let s0 := p0.x + p0.y
    let s1 := p1.x + p1.y
    let s2 := p2.x + p2.y
    let s3 := p3.x + p3.y
    let d0 := p0.y - p0.x
    let d1 := p1.y - p1.x
    let d2 := p2.y - p2.x
    let d3 := p3.y - p3.x
    [pick4 p0 p1 p2 p3 (minElemIdx4 s0 s1 s2 s3),
     pick4 p0 p1 p2 p3 (minElemIdx4 d0 d1 d2 d3),
     pick4 p0 p1 p2 p3 (maxElemIdx4 s0 s1 s2 s3),
     pick4 p0 p1 p2 p3 (maxElemIdx4 d0 d1 d2 d3)]
  | pts => pts

/-- Embedding of `edge_length` with the square root supplied as an oracle
(`std::sqrt` is external math): `sqrtQ (dx*dx + dy*dy)`. -/
def edge_length (sqrtQ : ℚ → ℚ) (p1 p2 : Point2) : ℚ :=
  let dx := p2.x - p1.x
  let dy := p2.y - p1.y
  sqrtQ (dx * dx + dy * dy)

/-- A 3×3 matrix of rationals (embedding of a non-empty 3×3 `cv::Mat` of
doubles as returned by `cv::findHomography`). -/
structure Mat3 where
  m00 : ℚ
  m01 : ℚ
  m02 : ℚ
  m10 : ℚ
  m11 : ℚ
  m12 : ℚ
  m20 : ℚ
  m21 : ℚ
  m22 : ℚ
deriving DecidableEq, Repr

/-- Row-major list of the 9 entries, as copied into `result.homography`. -/
def Mat3.toList (H : Mat3) : List ℚ :=
  [H.m00, H.m01, H.m02, H.m10, H.m11, H.m12, H.m20, H.m21, H.m22]

/-- `cv::perspectiveTransform` of a single point through a 3×3 matrix. -/
def perspT (H : Mat3) (p : Point2) : Point2 :=
  let w := H.m20 * p.x + H.m21 * p.y + H.m22
  ⟨(H.m00 * p.x + H.m01 * p.y + H.m02) / w,
   (H.m10 * p.x + H.m11 * p.y + H.m12) / w⟩

/-- Embedding of `cv::DMatch` (query index, train index, distance). -/
structure DMatch where
  queryIdx : ℕ
  trainIdx : ℕ
  distance : ℚ
deriving DecidableEq, Repr

/-- One contour as seen by `detect_paper_internal`: `cv::contourArea`,
`cv::arcLength(contour, true)` and `cv::approxPolyDP` at a given epsilon
are external OpenCV calls, so their outputs are oracle data; `approx` is
a function of the epsilon the code passes (`0.035 * peri`). Approximated
vertices are integer points (`cv::Point`). -/
structure ContourData where
  area : ℚ
  peri : ℚ
  approx : ℚ → List (ℤ × ℤ)

/-- Oracle bundle for all external (OpenCV / cmath) collaborators used by
the library. Each model function reads only the fields corresponding to
the external calls the C code makes. -/
structure Ext where
  /-- keypoints of the anchor image (`detector->detectAndCompute`). -/
  kpAnchor : List Point2
  /-- keypoints of the scene image. -/
  kpScene : List Point2
  /-- whether `desc_anchor.empty()`. -/
  descAnchorEmpty : Bool
  /-- whether `desc_scene.empty()`. -/
  descSceneEmpty : Bool
  /-- `matcher.knnMatch(desc_anchor, desc_scene, knn_matches, 2)`. -/
  knn : List (List DMatch)
  /-- `cv::findHomography(..., cv::RANSAC, 5.0, inliers_mask)`:
  `none` models an empty / non-3×3 result matrix. -/
  findHomographyRANSAC : List Point2 → List Point2 → Option (Mat3 × List Bool)
  /-- `std::sqrt` on rationals. -/
  sqrtQ : ℚ → ℚ
  /-- `std::atan2 dy dx` on rationals. -/
  atan2Q : ℚ → ℚ → ℚ
  /-- the blur→Canny→dilate→`cv::findContours` front end of paper
  detection, as a function of the effective blur kernel (`none` when the
  blur is skipped) and the two Canny thresholds. -/
  contours : Option ℤ → ℤ → ℤ → List ContourData
  /-- plain `cv::findHomography(canonical_corners, best_quad)`:
  `none` models an empty / non-3×3 result. -/
  findH4 : List Point2 → List Point2 → Option Mat3
  /-- `cv::solvePnP(object_points, best_quad, camera_matrix, ...)` as a
  function of the 3-D object points, the image points and the camera
  intrinsics `(focal, cx, cy)`; `some (rvec, tvec)` on success. -/
  solvePnP : List (ℚ × ℚ × ℚ) → List Point2 → ℚ × ℚ × ℚ →
      Option ((ℚ × ℚ × ℚ) × (ℚ × ℚ × ℚ))

/-- Embedding of the C `HomographyResult` struct. -/
structure HomographyResult where
  center_x : ℚ
  center_y : ℚ
  rotation : ℚ
  scale : ℚ
  homography : List ℚ
  corners : List ℚ
  num_matches : ℤ
  status : ℤ
deriving DecidableEq, Repr

/-- Zero-initialised `HomographyResult` (`HomographyResult result = {};`). -/
def zeroHomographyResult : HomographyResult :=
  { center_x := 0, center_y := 0, rotation := 0, scale := 0,
    homography := List.replicate 9 0, corners := List.replicate 8 0,
    num_matches := 0, status := 0 }

/-- Grayscale image as far as the homography core observes it: its pixel
content only reaches the oracles, so only the dimensions remain. -/
structure GrayImage where
  cols : ℤ
  rows : ℤ
deriving DecidableEq, Repr

/-- Number of set entries of the RANSAC inlier mask. -/
def inlierCount (mask : List Bool) : ℤ :=
  (mask.countP id : ℕ)

/-- The common tail of `compute_homography_internal` (lines 97-211) and
`hg_find_homography_from_points` (lines 374-486): RANSAC homography,
inlier thresholds, matrix copy, corner transform, centre / rotation /
scale, convexity and aspect-distortion validation. `n` is the number of
input correspondences (`good_matches.size()` resp. `num_points`). -/
def homography_tail (ext : Ext) (pts_anchor pts_scene : List Point2)
    (n : ℤ) (width height : ℤ) : HomographyResult :=
  let base := { zeroHomographyResult with num_matches := n }
  match ext.findHomographyRANSAC pts_anchor pts_scene with
  | none => base
  | some (H, inliers_mask) =>
    let num_inliers := inlierCount inliers_mask
    if num_inliers < 10 ∨ (num_inliers : ℚ) < (n : ℚ) * (3/10) then base
    else
      let c0 := perspT H ⟨0, 0⟩
      let c1 := perspT H ⟨(width : ℚ), 0⟩
      let c2 := perspT H ⟨(width : ℚ), (height : ℚ)⟩
      let c3 := perspT H ⟨0, (height : ℚ)⟩
      let dx := c1.x - c0.x
      let dy := c1.y - c0.y
      let top_edge := ext.sqrtQ (dx * dx + dy * dy)
      let left_dx := c3.x - c0.x
      let left_dy := c3.y - c0.y
      let left_edge := ext.sqrtQ (left_dx * left_dx + left_dy * left_dy)
      let r := { base with
        homography := H.toList,
        corners := [c0.x, c0.y, c1.x, c1.y, c2.x, c2.y, c3.x, c3.y],
        center_x := (c0.x + c1.x + c2.x + c3.x) / 4,
        center_y := (c0.y + c1.y + c2.y + c3.y) / 4,
        rotation := ext.atan2Q dy dx,
        scale := (top_edge / (width : ℚ) + left_edge / (height : ℚ)) / 2 }
      if ¬ is_convex_quadrilateral [c0, c1, c2, c3] then r
      else if ¬ aspect_distortion_ok top_edge left_edge (width : ℚ) (height : ℚ) then r
      else { r with num_matches := num_inliers, status := 1 }

/-- Lowe ratio-test filter applied to the knn match lists (lines 70-78):
keep `m[0]` of each inner list `m` with `m.size() == 2` and
`m[0].distance < 0.75 * m[1].distance`. -/
def loweFilter (knn : List (List DMatch)) : List DMatch :=
  knn.filterMap fun m =>
    match m with
    | [a, b] => if a.distance < (3/4) * b.distance then some a else none
    | _ => none

/-- Matched anchor points (`kp_anchor[m.queryIdx].pt` for the good
matches); out-of-range oracle indices default to the origin. -/
def matchedAnchorPts (ext : Ext) : List Point2 :=
  (loweFilter ext.knn).map fun m => ext.kpAnchor.getD m.queryIdx ⟨0, 0⟩

/-- Matched scene points (`kp_scene[m.trainIdx].pt`). -/
def matchedScenePts (ext : Ext) : List Point2 :=
  (loweFilter ext.knn).map fun m => ext.kpScene.getD m.trainIdx ⟨0, 0⟩

/-- Embedding of `compute_homography_internal`: keypoint /descriptor
guards, Lowe ratio test, minimum match count, then the common tail. -/
def compute_homography_internal (ext : Ext) (anchor_gray _scene_gray : GrayImage) :
    HomographyResult :=
  if ext.kpAnchor.length < 4 ∨ ext.kpScene.length < 4 then
    zeroHomographyResult
  else if ext.descAnchorEmpty ∨ ext.descSceneEmpty then
    zeroHomographyResult
  else
    let good_matches := loweFilter ext.knn
    if good_matches.length < 10 then
      { zeroHomographyResult with num_matches := (good_matches.length : ℤ) }
    else
      homography_tail ext (matchedAnchorPts ext) (matchedScenePts ext)
        (good_matches.length : ℤ) anchor_gray.cols anchor_gray.rows

/-- Points built from the parallel coordinate arrays
(`cv::Point2f(pts_x[i], pts_y[i])` for `i = 0..num_points-1`). -/
def ptsFromArrays (fx fy : ℕ → ℚ) (n : ℤ) : List Point2 :=
  (List.range n.toNat).map fun i => ⟨fx i, fy i⟩

/-- Embedding of `hg_find_homography_from_points`: the nullable C arrays
are `Option`-valued; null-pointer check, then point-count check, then
dimension check, then the common tail. -/
def hg_find_homography_from_points (ext : Ext)
    (pts0_x pts0_y pts1_x pts1_y : Option (ℕ → ℚ))
    (num_points anchor_width anchor_height : ℤ) : HomographyResult :=
  match pts0_x, pts0_y, pts1_x, pts1_y with
  | some f0x, some f0y, some f1x, some f1y =>
    if num_points < 4 then
      { zeroHomographyResult with status := 0, num_matches := num_points }
    else if anchor_width ≤ 0 ∨ anchor_height ≤ 0 then
      { zeroHomographyResult with status := -1 }
    else
      homography_tail ext (ptsFromArrays f0x f0y num_points)
        (ptsFromArrays f1x f1y num_points) num_points anchor_width anchor_height
  | _, _, _, _ => { zeroHomographyResult with status := -1 }

/-- Embedding of the C `PaperDetectionConfig` struct (Canny thresholds and
kernel size are C `int`s, the rest C `float`s). -/
structure PaperDetectionConfig where
  canny_threshold1 : ℤ
  canny_threshold2 : ℤ
  blur_kernel_size : ℤ
  min_area_ratio : ℚ
  max_area_ratio : ℚ
  expected_aspect_ratio : ℚ
  aspect_ratio_tolerance : ℚ
  paper_width_mm : ℚ
  paper_height_mm : ℚ
  focal_length : ℚ
  cx : ℚ
  cy : ℚ
deriving DecidableEq, Repr

/-- Embedding of the C `PaperDetectionResult` struct. -/
structure PaperDetectionResult where
  corners : List ℚ
  center_x : ℚ
  center_y : ℚ
  homography : List ℚ
  rvec : List ℚ
  tvec : List ℚ
  area : ℚ
  perimeter : ℚ
  aspect_ratio : ℚ
  status : ℤ
deriving DecidableEq, Repr

/-- Zero-initialised `PaperDetectionResult` (`PaperDetectionResult result = {};`). -/
def zeroPaperResult : PaperDetectionResult :=
  { corners := List.replicate 8 0, center_x := 0, center_y := 0,
    homography := List.replicate 9 0, rvec := List.replicate 3 0,
    tvec := List.replicate 3 0, area := 0, perimeter := 0,
    aspect_ratio := 0, status := 0 }

/-- The inline default configuration block of `detect_paper_internal`
(lines 578-591), used when the config pointer is null. -/
def inlinePaperDefaults : PaperDetectionConfig :=
  { canny_threshold1 := 50, canny_threshold2 := 150, blur_kernel_size := 5,
    min_area_ratio := 1/20, max_area_ratio := 19/20,
    expected_aspect_ratio := 210/297, aspect_ratio_tolerance := 3/10,
    paper_width_mm := 210, paper_height_mm := 297,
    focal_length := 0, cx := 0, cy := 0 }

/-- Embedding of `hg_default_paper_config` (lines 888-904). -/
def hg_default_paper_config : PaperDetectionConfig :=
  { canny_threshold1 := 50, canny_threshold2 := 150, blur_kernel_size := 5,
    min_area_ratio := 1/20, max_area_ratio := 19/20,
    expected_aspect_ratio := 210/297, aspect_ratio_tolerance := 3/10,
    paper_width_mm := 210, paper_height_mm := 297,
    focal_length := 0, cx := 0, cy := 0 }

/-- A paper candidate that survived every per-contour filter: the ordered
quadrilateral, its contour area and its selection score. -/
structure Candidate where
  quad : List Point2
  area : ℚ
  score : ℚ
deriving DecidableEq, Repr

/-- Per-contour body of the candidate loop of `detect_paper_internal`
(lines 634-708 up to the score computation): area window, 4-vertex
polygon approximation at epsilon `0.035 * peri`, clockwise ordering,
convexity, minimum edge length, aspect tolerance; returns the candidate
with `score = area * aspect_score` when every filter passes. -/
def paperCandidate (cfg : PaperDetectionConfig)
    (min_area max_area min_edge_length : ℚ) (sqrtQ : ℚ → ℚ)
    (c : ContourData) : Option Candidate :=
  if c.area < min_area ∨ max_area < c.area then none
  else
    let approx := c.approx ((7/200) * c.peri)
    if approx.length ≠ 4 then none
    else
      let quad := order_points_clockwise
        (approx.map fun p => Point2.mk (p.1 : ℚ) (p.2 : ℚ))
      if ¬ is_convex_quadrilateral quad then none
      else
        let q0 := quad.getD 0 ⟨0, 0⟩
        let q1 := quad.getD 1 ⟨0, 0⟩
        let q2 := quad.getD 2 ⟨0, 0⟩
        let q3 := quad.getD 3 ⟨0, 0⟩
        let edge0 := edge_length sqrtQ q0 q1
        let edge1 := edge_length sqrtQ q1 q2
        let edge2 := edge_length sqrtQ q2 q3
        let edge3 := edge_length sqrtQ q3 q0
        let min_edge := min (min (min edge0 edge1) edge2) edge3
        if min_edge < min_edge_length then none
        else
          let width := (edge0 + edge2) / 2
          let height := (edge1 + edge3) / 2
          let aspect_ratio := min width height / max width height
          if 0 < cfg.expected_aspect_ratio ∧
              cfg.aspect_ratio_tolerance <
                |aspect_ratio - cfg.expected_aspect_ratio| / cfg.expected_aspect_ratio then
            none
          else
            let aspect_score :=
              if 0 < cfg.expected_aspect_ratio then
                1 - |aspect_ratio - cfg.expected_aspect_ratio| / cfg.expected_aspect_ratio
              else 1
            some ⟨quad, c.area, c.area * aspect_score⟩

/-- Running best of the candidate loop
(`best_score` / `best_quad` / `best_area`). -/
structure BestAcc where
  best_score : ℚ
  best_quad : List Point2
  best_area : ℚ
deriving DecidableEq, Repr

/-- The candidate loop of `detect_paper_internal`: fold the contours,
replacing the running best whenever a surviving candidate scores
strictly higher (`if (score > best_score)`). -/
def selectBest (f : ContourData → Option Candidate) :
    List ContourData → BestAcc → BestAcc
  | [], acc => acc
  | c :: rest, acc =>
    match f c with
    | none => selectBest f rest acc
    | some cand =>
      selectBest f rest
        (if acc.best_score < cand.score then ⟨cand.score, cand.quad, cand.area⟩ else acc)

/-- Contour front end of `detect_paper_internal` (lines 597-618): blur
decision (skip unless the kernel size is positive and odd), Canny, dilate
and `cv::findContours`, all external, keyed by the parameters the code
passes. -/
def paperContours (ext : Ext) (cfg : PaperDetectionConfig) : List ContourData :=
  let blurKey : Option ℤ :=
    if 0 < cfg.blur_kernel_size ∧ cfg.blur_kernel_size % 2 = 1 then
      some cfg.blur_kernel_size
    else none
  ext.contours blurKey cfg.canny_threshold1 cfg.canny_threshold2

/-- The candidate loop of `detect_paper_internal` (lines 626-708) with
its derived area window and minimum edge length, starting from
`best_score = -1`, empty `best_quad` and `best_area = 0`. -/
def paperBest (ext : Ext) (gray : GrayImage) (cfg : PaperDetectionConfig) : BestAcc :=
  let image_area : ℚ := ((gray.cols * gray.rows : ℤ) : ℚ)
  selectBest
    (paperCandidate cfg (image_area * cfg.min_area_ratio)
      (image_area * cfg.max_area_ratio)
      (((min gray.cols gray.rows : ℤ) : ℚ) * (1/20)) ext.sqrtQ)
    (paperContours ext cfg) ⟨-1, [], 0⟩

/-- All candidates surviving the per-contour filters, in contour order. -/
def paperSurvivors (ext : Ext) (gray : GrayImage)
    (cfg : PaperDetectionConfig) : List Candidate :=
  let image_area : ℚ := ((gray.cols * gray.rows : ℤ) : ℚ)
  (paperContours ext cfg).filterMap
    (paperCandidate cfg (image_area * cfg.min_area_ratio)
      (image_area * cfg.max_area_ratio)
      (((min gray.cols gray.rows : ℤ) : ℚ) * (1/20)) ext.sqrtQ)

/-- Result population of `detect_paper_internal` (lines 716-810) once a
best quadrilateral has been selected: corners, centre, area, perimeter,
aspect ratio, canonical-rectangle homography (zeros kept when the solve
fails) and optional pose (zeros kept when skipped or failed),
status 1. -/
def paperResultOfBest (ext : Ext) (gray : GrayImage)
    (cfg : PaperDetectionConfig) (best : BestAcc) : PaperDetectionResult :=
  let q0 := best.best_quad.getD 0 ⟨0, 0⟩
  let q1 := best.best_quad.getD 1 ⟨0, 0⟩
  let q2 := best.best_quad.getD 2 ⟨0, 0⟩
  let q3 := best.best_quad.getD 3 ⟨0, 0⟩
  let perimeter := edge_length ext.sqrtQ q0 q1 + edge_length ext.sqrtQ q1 q2 +
    edge_length ext.sqrtQ q2 q3 + edge_length ext.sqrtQ q3 q0
  let width := (edge_length ext.sqrtQ q0 q1 + edge_length ext.sqrtQ q3 q2) / 2
  let height := (edge_length ext.sqrtQ q0 q3 + edge_length ext.sqrtQ q1 q2) / 2
  let paper_w0 := if 0 < cfg.paper_width_mm then cfg.paper_width_mm else 210
  let paper_h0 := if 0 < cfg.paper_height_mm then cfg.paper_height_mm else 297
  let paper_w := if height < width then paper_h0 else paper_w0
  let paper_h := if height < width then paper_w0 else paper_h0
  let canonical : List Point2 :=
    [⟨0, 0⟩, ⟨paper_w, 0⟩, ⟨paper_w, paper_h⟩, ⟨0, paper_h⟩]
  let homography := match ext.findH4 canonical best.best_quad with
    | some H => H.toList
    | none => List.replicate 9 0
  let cxQ := if 0 < cfg.cx then cfg.cx else (gray.cols : ℚ) / 2
  let cyQ := if 0 < cfg.cy then cfg.cy else (gray.rows : ℚ) / 2
  let object_points : List (ℚ × ℚ × ℚ) :=
    [(0, 0, 0), (paper_w, 0, 0), (paper_w, paper_h, 0), (0, paper_h, 0)]
  let pose := if 0 < cfg.focal_length then
      ext.solvePnP object_points best.best_quad (cfg.focal_length, cxQ, cyQ)
    else none
  let rvec := match pose with
    | some ((r1, r2, r3), _) => [r1, r2, r3]
    | none => List.replicate 3 0
  let tvec := match pose with
    | some (_, (t1, t2, t3)) => [t1, t2, t3]
    | none => List.replicate 3 0
  { corners := [q0.x, q0.y, q1.x, q1.y, q2.x, q2.y, q3.x, q3.y],
    center_x := (q0.x + q1.x + q2.x + q3.x) / 4,
    center_y := (q0.y + q1.y + q2.y + q3.y) / 4,
    homography := homography, rvec := rvec, tvec := tvec,
    area := best.best_area, perimeter := perimeter,
    aspect_ratio := min width height / max width height, status := 1 }

/-- Embedding of `detect_paper_internal` (lines 565-811): default config
resolution, contour front end, candidate loop, then result population. -/
def detect_paper_internal (ext : Ext) (gray : GrayImage)
    (config : Option PaperDetectionConfig) : PaperDetectionResult :=
  let cfg := match config with
    | some c => c
    | none => inlinePaperDefaults
  if (paperContours ext cfg).isEmpty then { zeroPaperResult with status := 0 }
  else
    let best := paperBest ext gray cfg
    if best.best_quad.isEmpty then { zeroPaperResult with status := 0 }
    else paperResultOfBest ext gray cfg best

/-! ### Helper lemmas -/

/-- Unfolding characterisation of the convexity test on a 4-point list. -/
lemma is_convex_quadrilateral_iff (p0 p1 p2 p3 : Point2) :
    is_convex_quadrilateral [p0, p1, p2, p3] = true ↔
      ((0 < cross_product p0 p1 p2 ∧ 0 < cross_product p1 p2 p3 ∧
        0 < cross_product p2 p3 p0 ∧ 0 < cross_product p3 p0 p1) ∨
       (cross_product p0 p1 p2 < 0 ∧ cross_product p1 p2 p3 < 0 ∧
        cross_product p2 p3 p0 < 0 ∧ cross_product p3 p0 p1 < 0)) := by
  simp only [is_convex_quadrilateral, Bool.or_eq_true, Bool.and_eq_true,
    decide_eq_true_eq]
  tauto

/-- `std::min_element` over four values returns index 0 when the first
value is strictly least. -/
lemma minElemIdx4_eq_zero {v0 v1 v2 v3 : ℚ} (h1 : v0 < v1) (h2 : v0 < v2)
    (h3 : v0 < v3) : minElemIdx4 v0 v1 v2 v3 = 0 := by
  unfold minElemIdx4
  split_ifs <;> first | rfl | linarith

/-- `std::min_element` over four values returns index 1 when the second
value is strictly least. -/
lemma minElemIdx4_eq_one {v0 v1 v2 v3 : ℚ} (h0 : v1 < v0) (h2 : v1 < v2)
    (h3 : v1 < v3) : minElemIdx4 v0 v1 v2 v3 = 1 := by
  unfold minElemIdx4
  split_ifs <;> first | rfl | linarith

/-- `std::max_element` over four values returns index 2 when the third
value is strictly greatest. -/
lemma maxElemIdx4_eq_two {v0 v1 v2 v3 : ℚ} (h0 : v0 < v2) (h1 : v1 < v2)
    (h3 : v3 < v2) : maxElemIdx4 v0 v1 v2 v3 = 2 := by
  unfold maxElemIdx4
  split_ifs <;> first | rfl | linarith

/-- `std::max_element` over four values returns index 3 when the fourth
value is strictly greatest. -/
lemma maxElemIdx4_eq_three {v0 v1 v2 v3 : ℚ} (h0 : v0 < v3) (h1 : v1 < v3)
    (h2 : v2 < v3) : maxElemIdx4 v0 v1 v2 v3 = 3 := by
  unfold maxElemIdx4
  split_ifs <;> first | rfl | linarith

/-- The shared estimation tail only ever reports status `0` or `1`. -/
lemma homography_tail_status (ext : Ext) (pA pS : List Point2) (n w h : ℤ) :
    (homography_tail ext pA pS n w h).status = 0 ∨
    (homography_tail ext pA pS n w h).status = 1 := by
  unfold homography_tail
  cases hFH : ext.findHomographyRANSAC pA pS with
  | none => left; rfl
  | some p =>
    obtain ⟨H, mask⟩ := p
    simp only []
    split_ifs <;> simp [zeroHomographyResult]

/-- A concrete oracle bundle used by the witnesses: no keypoints, empty
matches, every external solver failing, `sqrt`/`atan2` replaced by
trivial total functions. -/
def trivialExt : Ext :=
  { kpAnchor := [], kpScene := [], descAnchorEmpty := true,
    descSceneEmpty := true, knn := [],
    findHomographyRANSAC := fun _ _ => none, sqrtQ := fun q => q,
    atan2Q := fun _ _ => 0, contours := fun _ _ _ => [],
    findH4 := fun _ _ => none, solvePnP := fun _ _ _ => none }

/-- Identity 3×3 matrix, used by concrete witnesses. -/
def idMat3 : Mat3 := ⟨1, 0, 0, 0, 1, 0, 0, 0, 1⟩

/-- Oracle bundle whose RANSAC solver always returns the identity with a
single-inlier mask, used by concrete witnesses. -/
def oneInlierExt : Ext :=
  { trivialExt with findHomographyRANSAC := fun _ _ => some (idMat3, [true]) }

/-- Thresholding behaviour of the shared estimation tail when RANSAC
returns a non-empty 3×3 matrix: status 1 implies both inlier conditions,
and failing either condition forces status 0. -/
lemma homography_tail_thresholds (ext : Ext) (pA pS : List Point2)
    (n w h : ℤ) (H : Mat3) (mask : List Bool)
    (hFH : ext.findHomographyRANSAC pA pS = some (H, mask)) :
    ((homography_tail ext pA pS n w h).status = 1 →
      10 ≤ inlierCount mask ∧
      (n : ℚ) * (3/10) ≤ ((inlierCount mask : ℤ) : ℚ)) ∧
    ((inlierCount mask < 10 ∨ ((inlierCount mask : ℤ) : ℚ) < (n : ℚ) * (3/10)) →
      (homography_tail ext pA pS n w h).status = 0) := by
  unfold homography_tail
  rw [hFH]
  dsimp only
  by_cases hth : inlierCount mask < 10 ∨
      ((inlierCount mask : ℤ) : ℚ) < (n : ℚ) * (3/10)
  · rw [if_pos hth]
    constructor
    · intro h1
      exact absurd h1 (by simp [zeroHomographyResult])
    · intro _
      rfl
  · rw [if_neg hth]
    push_neg at hth
    constructor
    · intro _
      exact ⟨hth.1, hth.2⟩
    · intro hcontra
      rcases hcontra with hc | hc
      · exact absurd hc (not_lt.mpr hth.1)
      · exact absurd hc (not_lt.mpr hth.2)

/-! ### Claims -/

/-- Claim C1: for every call to `hg_find_homography_from_points` with four
non-null coordinate arrays and `num_points < 4`, the function returns
status 0 (rejection, not an input error) with `num_matches` equal to the
supplied `num_points`. -/
theorem C1_reject_few_points (ext : Ext) (f0x f0y f1x f1y : ℕ → ℚ)
    (n w h : ℤ) (hn : n < 4) :
    (hg_find_homography_from_points ext (some f0x) (some f0y) (some f1x)
        (some f1y) n w h).status = 0 ∧
    (hg_find_homography_from_points ext (some f0x) (some f0y) (some f1x)
        (some f1y) n w h).num_matches = n := by
  simp [hg_find_homography_from_points, hn]

/-- Witness for C1 at `num_points = 3`. -/
theorem C1_reject_few_points_witness :
    (hg_find_homography_from_points trivialExt (some fun _ => 0)
        (some fun _ => 0) (some fun _ => 0) (some fun _ => 0) 3 10 10).status = 0 ∧
    (hg_find_homography_from_points trivialExt (some fun _ => 0)
        (some fun _ => 0) (some fun _ => 0) (some fun _ => 0) 3 10 10).num_matches = 3 :=
  C1_reject_few_points trivialExt _ _ _ _ 3 10 10 (by decide)

/-- Claim C9: in `hg_find_homography_from_points` the point-count check
precedes the dimension check: with four non-null arrays, `num_points < 4`
and non-positive dimensions give status 0 with `num_matches = num_points`
(not `-1`), and status `-1` is reachable only when `num_points ≥ 4` (and
only for invalid dimensions). -/
theorem C9_count_check_first (ext : Ext) (f0x f0y f1x f1y : ℕ → ℚ)
    (n w h : ℤ) :
    (n < 4 → (w ≤ 0 ∨ h ≤ 0) →
      (hg_find_homography_from_points ext (some f0x) (some f0y) (some f1x)
          (some f1y) n w h).status = 0 ∧
      (hg_find_homography_from_points ext (some f0x) (some f0y) (some f1x)
          (some f1y) n w h).num_matches = n) ∧
    ((hg_find_homography_from_points ext (some f0x) (some f0y) (some f1x)
        (some f1y) n w h).status = -1 → 4 ≤ n ∧ (w ≤ 0 ∨ h ≤ 0)) := by
  constructor
  · intro hn _
    simp [hg_find_homography_from_points, hn]
  · intro hs
    by_cases hn : n < 4
    · simp [hg_find_homography_from_points, hn] at hs
    · by_cases hd : w ≤ 0 ∨ h ≤ 0
      · exact ⟨by omega, hd⟩
      · exfalso
        simp only [hg_find_homography_from_points, if_neg hn, if_neg hd] at hs
        rcases homography_tail_status ext (ptsFromArrays f0x f0y n)
            (ptsFromArrays f1x f1y n) n w h with h0 | h1
        · rw [hs] at h0; exact absurd h0 (by decide)
        · rw [hs] at h1; exact absurd h1 (by decide)

/-- Witness for C9 at `num_points = 2`, `anchor_width = -5`. -/
theorem C9_count_check_first_witness :
    (hg_find_homography_from_points trivialExt (some fun _ => 0)
        (some fun _ => 0) (some fun _ => 0) (some fun _ => 0) 2 (-5) 7).status = 0 ∧
    (hg_find_homography_from_points trivialExt (some fun _ => 0)
        (some fun _ => 0) (some fun _ => 0) (some fun _ => 0) 2 (-5) 7).num_matches = 2 :=
  (C9_count_check_first trivialExt _ _ _ _ 2 (-5) 7).1 (by decide) (Or.inl (by decide))

/-- Counterexample to claim C3 as stated: the claim asserts that an
edge-length ratio below `0.33 ×` the reference is always rejected, but at
`top = 31`, `left = 100`, reference aspect `1` the distortion is
`0.31 < 0.33` and the check accepts. -/
theorem C3_counterexample :
    (31 : ℚ) / 100 < (33 / 100) * ((1 : ℚ) / 1) ∧
    aspect_distortion_ok 31 100 1 1 = true := by
  constructor
  · norm_num
  · norm_num [aspect_distortion_ok]

/-- Claim C3 (amended): the aspect-distortion check computes
`distortion = (top/left) / (w/h)` and rejects exactly when
`distortion < 0.3` or `distortion > 3.0`; with a positive reference
aspect, a ratio above `3 ×` or below `0.3 ×` the reference is always
rejected, and `distortion = 1` is always accepted. -/
theorem C3_aspect_check (top left w h : ℚ) :
    (aspect_distortion_ok top left w h = true ↔
      ¬((top / left) / (w / h) < 3/10 ∨ 3 < (top / left) / (w / h))) ∧
    (0 < w / h →
      (3 * (w / h) < top / left ∨ top / left < (3/10) * (w / h)) →
      aspect_distortion_ok top left w h = false) ∧
    ((top / left) / (w / h) = 1 → aspect_distortion_ok top left w h = true) := by
  refine ⟨?_, ?_, ?_⟩
  · simp [aspect_distortion_ok, not_or]
  · intro ha hcase
    have hd : (top / left) / (w / h) < 3/10 ∨ 3 < (top / left) / (w / h) := by
      rcases hcase with hgt | hlt
      · right
        rw [lt_div_iff₀ ha]
        linarith
      · left
        rw [div_lt_iff₀ ha]
        linarith
    simp only [aspect_distortion_ok, Bool.not_eq_false', Bool.or_eq_true,
      decide_eq_true_eq]
    exact hd
  · intro h1
    simp [aspect_distortion_ok, h1]
    norm_num

/-- Witness for C3 (amended) at `top = left = 2`, `w = h = 1`
(distortion exactly 1, accepted). -/
theorem C3_aspect_check_witness :
    aspect_distortion_ok 2 2 1 1 = true :=
  (C3_aspect_check 2 2 1 1).2.2 (by norm_num)

/-- Claim C4: the convexity check accepts a 4-point sequence iff the four
cyclic signed cross products are all strictly positive or all strictly
negative; mixed signs (in particular a reflex vertex) are rejected, and
any axis-aligned rectangle with distinct corners is accepted. -/
theorem C4_convexity :
    (∀ p0 p1 p2 p3 : Point2,
      is_convex_quadrilateral [p0, p1, p2, p3] = true ↔
        ((0 < cross_product p0 p1 p2 ∧ 0 < cross_product p1 p2 p3 ∧
          0 < cross_product p2 p3 p0 ∧ 0 < cross_product p3 p0 p1) ∨
         (cross_product p0 p1 p2 < 0 ∧ cross_product p1 p2 p3 < 0 ∧
          cross_product p2 p3 p0 < 0 ∧ cross_product p3 p0 p1 < 0))) ∧
    (∀ p0 p1 p2 p3 : Point2, ∀ a b : ℚ,
      a ∈ crossList p0 p1 p2 p3 → b ∈ crossList p0 p1 p2 p3 →
      a < 0 → 0 < b → is_convex_quadrilateral [p0, p1, p2, p3] = false) ∧
    (∀ x1 x2 y1 y2 : ℚ, x1 ≠ x2 → y1 ≠ y2 →
      is_convex_quadrilateral
        [⟨x1, y1⟩, ⟨x2, y1⟩, ⟨x2, y2⟩, ⟨x1, y2⟩] = true) := by
  refine ⟨is_convex_quadrilateral_iff, ?_, ?_⟩
  · intro p0 p1 p2 p3 a b ha hb haneg hbpos
    rw [← Bool.not_eq_true, is_convex_quadrilateral_iff]
    simp only [crossList, List.mem_cons, List.not_mem_nil, or_false] at ha hb
    rintro (⟨h1, h2, h3, h4⟩ | ⟨h1, h2, h3, h4⟩)
    · rcases ha with rfl | rfl | rfl | rfl <;> linarith
    · rcases hb with rfl | rfl | rfl | rfl <;> linarith
  · intro x1 x2 y1 y2 hx hy
    have e1 : cross_product ⟨x1, y1⟩ ⟨x2, y1⟩ ⟨x2, y2⟩ = (x2 - x1) * (y2 - y1) := by
      simp only [cross_product]
      ring
    have e2 : cross_product ⟨x2, y1⟩ ⟨x2, y2⟩ ⟨x1, y2⟩ = (x2 - x1) * (y2 - y1) := by
      simp only [cross_product]
      ring
    have e3 : cross_product ⟨x2, y2⟩ ⟨x1, y2⟩ ⟨x1, y1⟩ = (x2 - x1) * (y2 - y1) := by
      simp only [cross_product]
      ring
    have e4 : cross_product ⟨x1, y2⟩ ⟨x1, y1⟩ ⟨x2, y1⟩ = (x2 - x1) * (y2 - y1) := by
      simp only [cross_product]
      ring
    rw [is_convex_quadrilateral_iff, e1, e2, e3, e4]
    have hne : (x2 - x1) * (y2 - y1) ≠ 0 :=
      mul_ne_zero (sub_ne_zero.mpr (Ne.symm hx)) (sub_ne_zero.mpr (Ne.symm hy))
    rcases hne.lt_or_lt with hneg | hpos
    · right
      exact ⟨hneg, hneg, hneg, hneg⟩
    · left
      exact ⟨hpos, hpos, hpos, hpos⟩

/-- Witness for C4: a unit square is accepted; the concave quadrilateral
`(0,0), (4,0), (1,1), (0,4)` (reflex at `(1,1)`) is rejected. -/
theorem C4_convexity_witness :
    is_convex_quadrilateral
      [⟨0, 0⟩, ⟨1, 0⟩, ⟨1, 1⟩, ⟨0, 1⟩] = true ∧
    is_convex_quadrilateral
      [⟨0, 0⟩, ⟨4, 0⟩, ⟨1, 1⟩, ⟨0, 4⟩] = false :=
  ⟨C4_convexity.2.2 0 1 0 1 (by norm_num) (by norm_num),
   C4_convexity.2.1 ⟨0, 0⟩ ⟨4, 0⟩ ⟨1, 1⟩ ⟨0, 4⟩
     (cross_product ⟨4, 0⟩ ⟨1, 1⟩ ⟨0, 4⟩) (cross_product ⟨0, 0⟩ ⟨4, 0⟩ ⟨1, 1⟩)
     (by simp [crossList]) (by simp [crossList])
     (by norm_num [cross_product]) (by norm_num [cross_product])⟩

/-- Claim C5: `order_points_clockwise` is idempotent on a 4-point
sequence already ordered clockwise from top-left, when the four extrema
(`min (x+y)` at 0, `min (y-x)` at 1, `max (x+y)` at 2, `max (y-x)` at 3)
are attained uniquely. -/
theorem C5_order_points_idempotent (p0 p1 p2 p3 : Point2)
    (hs1 : p0.x + p0.y < p1.x + p1.y) (hs2 : p0.x + p0.y < p2.x + p2.y)
    (hs3 : p0.x + p0.y < p3.x + p3.y)
    (hS1 : p1.x + p1.y < p2.x + p2.y) (hS3 : p3.x + p3.y < p2.x + p2.y)
    (hd0 : p1.y - p1.x < p0.y - p0.x) (hd2 : p1.y - p1.x < p2.y - p2.x)
    (hd3 : p1.y - p1.x < p3.y - p3.x)
    (hD0 : p0.y - p0.x < p3.y - p3.x) (hD2 : p2.y - p2.x < p3.y - p3.x) :
    order_points_clockwise [p0, p1, p2, p3] = [p0, p1, p2, p3] := by
  simp only [order_points_clockwise]
  rw [minElemIdx4_eq_zero hs1 hs2 hs3, minElemIdx4_eq_one hd0 hd2 hd3,
    maxElemIdx4_eq_two hs2 hS1 hS3, maxElemIdx4_eq_three hD0 hd3 hD2]
  rfl

/-- Witness for C5: the unit square ordered from top-left. -/
theorem C5_order_points_idempotent_witness :
    order_points_clockwise [⟨0, 0⟩, ⟨1, 0⟩, ⟨1, 1⟩, ⟨0, 1⟩] =
      [⟨0, 0⟩, ⟨1, 0⟩, ⟨1, 1⟩, ⟨0, 1⟩] :=
  C5_order_points_idempotent ⟨0, 0⟩ ⟨1, 0⟩ ⟨1, 1⟩ ⟨0, 1⟩
    (by norm_num) (by norm_num) (by norm_num) (by norm_num) (by norm_num)
    (by norm_num) (by norm_num) (by norm_num) (by norm_num) (by norm_num)

/-- Claim C6: the matching pipeline returns status 0 without attempting
homography estimation when either image yields fewer than 4 keypoints or
an empty descriptor set, or when fewer than 10 matches survive the Lowe
ratio test (survival requires `nearest < 0.75 * secondNearest`); in the
ratio-test rejection case `num_matches` is the surviving count. -/
theorem C6_matcher_early_rejection (ext : Ext) (anchor scene : GrayImage) :
    (ext.kpAnchor.length < 4 ∨ ext.kpScene.length < 4 →
      compute_homography_internal ext anchor scene = zeroHomographyResult) ∧
    (ext.descAnchorEmpty = true ∨ ext.descSceneEmpty = true →
      compute_homography_internal ext anchor scene = zeroHomographyResult) ∧
    ((loweFilter ext.knn).length < 10 →
      (compute_homography_internal ext anchor scene).status = 0) ∧
    (4 ≤ ext.kpAnchor.length → 4 ≤ ext.kpScene.length →
      ext.descAnchorEmpty = false → ext.descSceneEmpty = false →
      (loweFilter ext.knn).length < 10 →
      compute_homography_internal ext anchor scene =
        { zeroHomographyResult with
            num_matches := ((loweFilter ext.knn).length : ℤ) }) ∧
    (∀ m : List DMatch, loweFilter [m] ≠ [] →
      ∃ a b : DMatch, m = [a, b] ∧ a.distance < (3/4) * b.distance) := by
  refine ⟨?_, ?_, ?_, ?_, ?_⟩
  · intro hg
    simp [compute_homography_internal, hg]
  · intro hd
    by_cases hg : ext.kpAnchor.length < 4 ∨ ext.kpScene.length < 4
    · simp [compute_homography_internal, hg]
    · rcases hd with hd | hd <;> simp [compute_homography_internal, hg, hd]
  · intro hlt
    by_cases hg : ext.kpAnchor.length < 4 ∨ ext.kpScene.length < 4
    · simp [compute_homography_internal, hg, zeroHomographyResult]
    · by_cases hd : ext.descAnchorEmpty = true ∨ ext.descSceneEmpty = true
      · rcases hd with hd | hd <;>
          simp [compute_homography_internal, hg, hd, zeroHomographyResult]
      · simp [compute_homography_internal, hg, hd, hlt, zeroHomographyResult]
  · intro hka hks hda hds hlt
    have hg : ¬(ext.kpAnchor.length < 4 ∨ ext.kpScene.length < 4) := by omega
    simp [compute_homography_internal, hg, hda, hds, hlt]
  · intro m hm
    match m with
    | [] => simp [loweFilter] at hm
    | [a] => simp [loweFilter] at hm
    | a :: b :: c :: rest => simp [loweFilter] at hm
    | [a, b] =>
      by_cases hab : a.distance < (3/4) * b.distance
      · exact ⟨a, b, rfl, hab⟩
      · simp [loweFilter, hab] at hm

/-- Witness for C6: with no keypoints at all, matching is rejected with
the zero result. -/
theorem C6_matcher_early_rejection_witness :
    compute_homography_internal trivialExt ⟨10, 10⟩ ⟨10, 10⟩ = zeroHomographyResult :=
  (C6_matcher_early_rejection trivialExt ⟨10, 10⟩ ⟨10, 10⟩).1 (Or.inl (by decide))

/-- Claim C2: in both pipelines, when RANSAC produces a non-empty 3×3
matrix, status 1 requires `inlierCount ≥ 10` and
`inlierCount ≥ 0.3 * n` (with `n` the number of input correspondences),
and failing either condition forces status 0. -/
theorem C2_inlier_thresholds :
    (∀ ext : Ext, ∀ anchor scene : GrayImage, ∀ H : Mat3, ∀ mask : List Bool,
      4 ≤ ext.kpAnchor.length → 4 ≤ ext.kpScene.length →
      ext.descAnchorEmpty = false → ext.descSceneEmpty = false →
      10 ≤ (loweFilter ext.knn).length →
      ext.findHomographyRANSAC (matchedAnchorPts ext) (matchedScenePts ext) =
        some (H, mask) →
      ((compute_homography_internal ext anchor scene).status = 1 →
        10 ≤ inlierCount mask ∧
        (((loweFilter ext.knn).length : ℤ) : ℚ) * (3/10) ≤
          ((inlierCount mask : ℤ) : ℚ)) ∧
      ((inlierCount mask < 10 ∨
          ((inlierCount mask : ℤ) : ℚ) <
            (((loweFilter ext.knn).length : ℤ) : ℚ) * (3/10)) →
        (compute_homography_internal ext anchor scene).status = 0)) ∧
    (∀ ext : Ext, ∀ f0x f0y f1x f1y : ℕ → ℚ, ∀ n w h : ℤ,
      ∀ H : Mat3, ∀ mask : List Bool,
      4 ≤ n → 0 < w → 0 < h →
      ext.findHomographyRANSAC (ptsFromArrays f0x f0y n)
        (ptsFromArrays f1x f1y n) = some (H, mask) →
      ((hg_find_homography_from_points ext (some f0x) (some f0y) (some f1x)
          (some f1y) n w h).status = 1 →
        10 ≤ inlierCount mask ∧
        (n : ℚ) * (3/10) ≤ ((inlierCount mask : ℤ) : ℚ)) ∧
      ((inlierCount mask < 10 ∨
          ((inlierCount mask : ℤ) : ℚ) < (n : ℚ) * (3/10)) →
        (hg_find_homography_from_points ext (some f0x) (some f0y) (some f1x)
          (some f1y) n w h).status = 0)) := by
  constructor
  · intro ext anchor scene H mask hka hks hda hds hgood hFH
    have hg : ¬(ext.kpAnchor.length < 4 ∨ ext.kpScene.length < 4) := by omega
    have hnl : ¬((loweFilter ext.knn).length < 10) := by omega
    have hred : compute_homography_internal ext anchor scene =
        homography_tail ext (matchedAnchorPts ext) (matchedScenePts ext)
          ((loweFilter ext.knn).length : ℤ) anchor.cols anchor.rows := by
      simp [compute_homography_internal, hg, hda, hds, hnl]
    rw [hred]
    exact homography_tail_thresholds ext (matchedAnchorPts ext)
      (matchedScenePts ext) ((loweFilter ext.knn).length : ℤ)
      anchor.cols anchor.rows H mask hFH
  · intro ext f0x f0y f1x f1y n w h H mask hn hw hh hFH
    have hn' : ¬(n < 4) := by omega
    have hd' : ¬(w ≤ 0 ∨ h ≤ 0) := by omega
    have hred : hg_find_homography_from_points ext (some f0x) (some f0y)
        (some f1x) (some f1y) n w h =
        homography_tail ext (ptsFromArrays f0x f0y n)
          (ptsFromArrays f1x f1y n) n w h := by
      simp [hg_find_homography_from_points, hn', hd']
    rw [hred]
    exact homography_tail_thresholds ext (ptsFromArrays f0x f0y n)
      (ptsFromArrays f1x f1y n) n w h H mask hFH

/-- Witness for C2: a RANSAC result with a single inlier out of 4
correspondences is rejected with status 0. -/
theorem C2_inlier_thresholds_witness :
    (hg_find_homography_from_points oneInlierExt (some fun _ => 0)
        (some fun _ => 0) (some fun _ => 0) (some fun _ => 0) 4 10 10).status = 0 :=
  (C2_inlier_thresholds.2 oneInlierExt (fun _ => 0) (fun _ => 0) (fun _ => 0)
      (fun _ => 0) 4 10 10 idMat3 [true] (by decide) (by decide) (by decide)
      rfl).2 (Or.inl (by decide))

/-- Claim C7: `hg_default_paper_config` returns exactly the documented A4
defaults, and paper detection with a null config pointer behaves
identically to paper detection with this default configuration. -/
theorem C7_default_config (ext : Ext) (gray : GrayImage) :
    hg_default_paper_config.canny_threshold1 = 50 ∧
    hg_default_paper_config.canny_threshold2 = 150 ∧
    hg_default_paper_config.blur_kernel_size = 5 ∧
    hg_default_paper_config.min_area_ratio = 1/20 ∧
    hg_default_paper_config.max_area_ratio = 19/20 ∧
    hg_default_paper_config.expected_aspect_ratio = 210/297 ∧
    hg_default_paper_config.aspect_ratio_tolerance = 3/10 ∧
    hg_default_paper_config.paper_width_mm = 210 ∧
    hg_default_paper_config.paper_height_mm = 297 ∧
    hg_default_paper_config.focal_length = 0 ∧
    hg_default_paper_config.cx = 0 ∧
    hg_default_paper_config.cy = 0 ∧
    detect_paper_internal ext gray none =
      detect_paper_internal ext gray (some hg_default_paper_config) :=
  ⟨rfl, rfl, rfl, rfl, rfl, rfl, rfl, rfl, rfl, rfl, rfl, rfl, rfl⟩

/-- Specification of the candidate-selection fold: either no surviving
candidate beats the accumulator and it is returned unchanged, or the
result is the first surviving candidate that strictly beats the
accumulator and is never beaten later, and its score dominates every
surviving candidate. -/
lemma selectBest_spec (f : ContourData → Option Candidate)
    (cs : List ContourData) (acc : BestAcc) :
    (selectBest f cs acc = acc ∧
      ∀ c ∈ cs.filterMap f, c.score ≤ acc.best_score) ∨
    (∃ c ∈ cs.filterMap f,
      selectBest f cs acc = ⟨c.score, c.quad, c.area⟩ ∧
      acc.best_score < c.score ∧
      ∀ c' ∈ cs.filterMap f, c'.score ≤ c.score) := by
  induction cs generalizing acc with
  | nil =>
    left
    exact ⟨rfl, by simp⟩
  | cons hd tl ih =>
    cases hf : f hd with
    | none =>
      simp only [selectBest, hf]
      rcases ih acc with ⟨h1, h2⟩ | ⟨c, hc, h1, h2, h3⟩
      · left
        refine ⟨h1, ?_⟩
        simpa [List.filterMap_cons, hf] using h2
      · right
        refine ⟨c, ?_, h1, h2, ?_⟩
        · simp [List.filterMap_cons, hf, hc]
        · simpa [List.filterMap_cons, hf] using h3
    | some cand =>
      simp only [selectBest, hf]
      by_cases hlt : acc.best_score < cand.score
      · rw [if_pos hlt]
        rcases ih ⟨cand.score, cand.quad, cand.area⟩ with ⟨h1, h2⟩ | ⟨c, hc, h1, h2, h3⟩
        · right
          refine ⟨cand, by simp [List.filterMap_cons, hf], h1, hlt, ?_⟩
          intro c' hc'
          simp only [List.filterMap_cons, hf, List.mem_cons] at hc'
          rcases hc' with rfl | hc'
          · exact le_refl _
          · exact h2 c' hc'
        · right
          refine ⟨c, ?_, h1, hlt.trans h2, ?_⟩
          · simp only [List.filterMap_cons, hf, List.mem_cons]
            exact Or.inr hc
          · intro c' hc'
            simp only [List.filterMap_cons, hf, List.mem_cons] at hc'
            rcases hc' with rfl | hc'
            · exact le_of_lt h2
            · exact h3 c' hc'
      · rw [if_neg hlt]
        rcases ih acc with ⟨h1, h2⟩ | ⟨c, hc, h1, h2, h3⟩
        · left
          refine ⟨h1, ?_⟩
          intro c' hc'
          simp only [List.filterMap_cons, hf, List.mem_cons] at hc'
          rcases hc' with rfl | hc'
          · exact not_lt.mp hlt
          · exact h2 c' hc'
        · right
          refine ⟨c, ?_, h1, h2, ?_⟩
          · simp only [List.filterMap_cons, hf, List.mem_cons]
            exact Or.inr hc
          · intro c' hc'
            simp only [List.filterMap_cons, hf, List.mem_cons] at hc'
            rcases hc' with rfl | hc'
            · exact (not_lt.mp hlt).trans (le_of_lt h2)
            · exact h3 c' hc'

/-- Ordering a 4-point list yields a non-empty list. -/
lemma order_points_clockwise_ne_nil {pts : List Point2} (h : pts.length = 4) :
    order_points_clockwise pts ≠ [] := by
  rcases pts with _ | ⟨a, _ | ⟨b, _ | ⟨c, _ | ⟨d, _ | ⟨e, rest⟩⟩⟩⟩⟩ <;>
    simp_all [order_points_clockwise]

/-- A surviving candidate's quadrilateral is never the empty list. -/
lemma paperCandidate_quad_ne_nil {cfg : PaperDetectionConfig}
    {mA mB mE : ℚ} {sq : ℚ → ℚ} {c : ContourData} {cand : Candidate}
    (h : paperCandidate cfg mA mB mE sq c = some cand) : cand.quad ≠ [] := by
  simp only [paperCandidate] at h
  split_ifs at h with h1 h2 h3 h4 h5 h6 <;>
    (obtain rfl : Candidate.mk _ _ _ = cand := Option.some_inj.mp h
     exact order_points_clockwise_ne_nil
       (by simpa [List.length_map] using not_ne_iff.mp h2))

/-- The selection fold of `paperBest` over the survivors of
`paperSurvivors`: the two definitions share their filter function. -/
lemma paperSurvivors_eq (ext : Ext) (gray : GrayImage)
    (cfg : PaperDetectionConfig) :
    paperSurvivors ext gray cfg = (paperContours ext cfg).filterMap
      (paperCandidate cfg
        (((gray.cols * gray.rows : ℤ) : ℚ) * cfg.min_area_ratio)
        (((gray.cols * gray.rows : ℤ) : ℚ) * cfg.max_area_ratio)
        (((min gray.cols gray.rows : ℤ) : ℚ) * (1/20)) ext.sqrtQ) := rfl

/-- Claim C10: once a best paper candidate has been selected, the result
has status 1 and equals the populated record; a failing canonical
homography solve leaves the homography at zeros, a skipped or failing
pose solve leaves `rvec`/`tvec` at zeros, and corners, centre, area,
perimeter and aspect ratio are populated regardless. -/
theorem C10_selected_always_found (ext : Ext) (gray : GrayImage)
    (cfg : PaperDetectionConfig)
    (hsel : (paperBest ext gray cfg).best_quad ≠ []) :
    detect_paper_internal ext gray (some cfg) =
      paperResultOfBest ext gray cfg (paperBest ext gray cfg) ∧
    (∀ b : BestAcc, (paperResultOfBest ext gray cfg b).status = 1) ∧
    (∀ b : BestAcc, (∀ canon pts, ext.findH4 canon pts = none) →
      (paperResultOfBest ext gray cfg b).homography = List.replicate 9 0) ∧
    (∀ b : BestAcc,
      (0 < cfg.focal_length → ∀ op ip cam, ext.solvePnP op ip cam = none) →
      (paperResultOfBest ext gray cfg b).rvec = List.replicate 3 0 ∧
      (paperResultOfBest ext gray cfg b).tvec = List.replicate 3 0) ∧
    (∀ b : BestAcc,
      (paperResultOfBest ext gray cfg b).corners =
        [(b.best_quad.getD 0 ⟨0, 0⟩).x, (b.best_quad.getD 0 ⟨0, 0⟩).y,
         (b.best_quad.getD 1 ⟨0, 0⟩).x, (b.best_quad.getD 1 ⟨0, 0⟩).y,
         (b.best_quad.getD 2 ⟨0, 0⟩).x, (b.best_quad.getD 2 ⟨0, 0⟩).y,
         (b.best_quad.getD 3 ⟨0, 0⟩).x, (b.best_quad.getD 3 ⟨0, 0⟩).y] ∧
      (paperResultOfBest ext gray cfg b).center_x =
        ((b.best_quad.getD 0 ⟨0, 0⟩).x + (b.best_quad.getD 1 ⟨0, 0⟩).x +
         (b.best_quad.getD 2 ⟨0, 0⟩).x + (b.best_quad.getD 3 ⟨0, 0⟩).x) / 4 ∧
      (paperResultOfBest ext gray cfg b).center_y =
        ((b.best_quad.getD 0 ⟨0, 0⟩).y + (b.best_quad.getD 1 ⟨0, 0⟩).y +
         (b.best_quad.getD 2 ⟨0, 0⟩).y + (b.best_quad.getD 3 ⟨0, 0⟩).y) / 4 ∧
      (paperResultOfBest ext gray cfg b).area = b.best_area ∧
      (paperResultOfBest ext gray cfg b).perimeter =
        edge_length ext.sqrtQ (b.best_quad.getD 0 ⟨0, 0⟩) (b.best_quad.getD 1 ⟨0, 0⟩) +
        edge_length ext.sqrtQ (b.best_quad.getD 1 ⟨0, 0⟩) (b.best_quad.getD 2 ⟨0, 0⟩) +
        edge_length ext.sqrtQ (b.best_quad.getD 2 ⟨0, 0⟩) (b.best_quad.getD 3 ⟨0, 0⟩) +
        edge_length ext.sqrtQ (b.best_quad.getD 3 ⟨0, 0⟩) (b.best_quad.getD 0 ⟨0, 0⟩)) := by
  refine ⟨?_, fun b => rfl, ?_, ?_, fun b => ⟨rfl, rfl, rfl, rfl, rfl⟩⟩
  · have hcont : ¬(paperContours ext cfg).isEmpty := by
      intro he
      rw [List.isEmpty_iff] at he
      apply hsel
      simp [paperBest, he, selectBest]
    have hqe : ¬(paperBest ext gray cfg).best_quad.isEmpty := by
      rw [List.isEmpty_iff]
      exact hsel
    simp only [detect_paper_internal]
    rw [if_neg hcont, if_neg hqe]
  · intro b hfail
    simp only [paperResultOfBest]
    rw [hfail]
  · intro b hfail
    simp only [paperResultOfBest]
    by_cases hf : 0 < cfg.focal_length
    · rw [if_pos hf, hfail hf]
      exact ⟨rfl, rfl⟩
    · rw [if_neg hf]
      exact ⟨rfl, rfl⟩

/-- Claim C8 (amended): the detector reports status 0 when no candidate
survives the filters, and also when every survivor scores at most the
initial best score `-1`; when some survivor scores above `-1` it selects
a survivor of maximal score and populates the result from it with
status 1. -/
theorem C8_best_candidate_selection (ext : Ext) (gray : GrayImage)
    (cfg : PaperDetectionConfig) :
    (paperSurvivors ext gray cfg = [] →
      (detect_paper_internal ext gray (some cfg)).status = 0) ∧
    ((∀ c ∈ paperSurvivors ext gray cfg, c.score ≤ -1) →
      (detect_paper_internal ext gray (some cfg)).status = 0) ∧
    ((∃ c ∈ paperSurvivors ext gray cfg, -1 < c.score) →
      ∃ c ∈ paperSurvivors ext gray cfg,
        (detect_paper_internal ext gray (some cfg)).status = 1 ∧
        (detect_paper_internal ext gray (some cfg)).area = c.area ∧
        (detect_paper_internal ext gray (some cfg)).corners =
          [(c.quad.getD 0 ⟨0, 0⟩).x, (c.quad.getD 0 ⟨0, 0⟩).y,
           (c.quad.getD 1 ⟨0, 0⟩).x, (c.quad.getD 1 ⟨0, 0⟩).y,
           (c.quad.getD 2 ⟨0, 0⟩).x, (c.quad.getD 2 ⟨0, 0⟩).y,
           (c.quad.getD 3 ⟨0, 0⟩).x, (c.quad.getD 3 ⟨0, 0⟩).y] ∧
        ∀ c' ∈ paperSurvivors ext gray cfg, c'.score ≤ c.score) := by
  have hPB : paperBest ext gray cfg = selectBest
      (paperCandidate cfg (((gray.cols * gray.rows : ℤ) : ℚ) * cfg.min_area_ratio)
        (((gray.cols * gray.rows : ℤ) : ℚ) * cfg.max_area_ratio)
        (((min gray.cols gray.rows : ℤ) : ℚ) * (1/20)) ext.sqrtQ)
      (paperContours ext cfg) ⟨-1, [], 0⟩ := rfl
  have hspec := selectBest_spec
    (paperCandidate cfg (((gray.cols * gray.rows : ℤ) : ℚ) * cfg.min_area_ratio)
      (((gray.cols * gray.rows : ℤ) : ℚ) * cfg.max_area_ratio)
      (((min gray.cols gray.rows : ℤ) : ℚ) * (1/20)) ext.sqrtQ)
    (paperContours ext cfg) ⟨-1, [], 0⟩
  refine ⟨?_, ?_, ?_⟩
  · intro hempty
    by_cases hc : (paperContours ext cfg).isEmpty
    · simp [detect_paper_internal, hc]
    · rcases hspec with ⟨h1, _⟩ | ⟨c, hc', _, h2, _⟩
      · have hqe : (paperBest ext gray cfg).best_quad.isEmpty := by
          rw [hPB, h1]
          rfl
        simp [detect_paper_internal, hc, hqe]
      · rw [paperSurvivors_eq] at hempty
        rw [hempty] at hc'
        exact absurd hc' (List.not_mem_nil c)
  · intro hall
    by_cases hc : (paperContours ext cfg).isEmpty
    · simp [detect_paper_internal, hc]
    · rcases hspec with ⟨h1, _⟩ | ⟨c, hc', _, h2, _⟩
      · have hqe : (paperBest ext gray cfg).best_quad.isEmpty := by
          rw [hPB, h1]
          rfl
        simp [detect_paper_internal, hc, hqe]
      · have : c.score ≤ -1 := hall c (by rw [paperSurvivors_eq]; exact hc')
        have h2' : (-1 : ℚ) < c.score := h2
        linarith
  · intro hex
    rcases hspec with ⟨h1, h2⟩ | ⟨c, hc', h1, _, h3⟩
    · exfalso
      rcases hex with ⟨c0, hc0, hpos⟩
      rw [paperSurvivors_eq] at hc0
      have := h2 c0 hc0
      have : c0.score ≤ -1 := this
      linarith
    · have hcont : ¬(paperContours ext cfg).isEmpty := by
        intro he
        rw [List.isEmpty_iff] at he
        rw [he] at hc'
        simp at hc'
      have hqnn : c.quad ≠ [] := by
        rcases List.mem_filterMap.mp hc' with ⟨ct, _, hct⟩
        exact paperCandidate_quad_ne_nil hct
      have hqe : ¬(paperBest ext gray cfg).best_quad.isEmpty = true := by
        rw [hPB, h1]
        simpa [List.isEmpty_iff] using hqnn
      have hd : detect_paper_internal ext gray (some cfg) =
          paperResultOfBest ext gray cfg ⟨c.score, c.quad, c.area⟩ := by
        simp only [detect_paper_internal]
        rw [if_neg (by simpa using hcont), if_neg hqe, hPB, h1]
      refine ⟨c, by rw [paperSurvivors_eq]; exact hc', ?_, ?_, ?_, ?_⟩
      · rw [hd]
        rfl
      · rw [hd]
        rfl
      · rw [hd]
        rfl
      · intro c' hc''
        rw [paperSurvivors_eq] at hc''
        exact h3 c' hc''

/-- A concrete 10×10 square contour delivered by the contour oracle. -/
def squareContour : ContourData :=
  { area := 100, peri := 40, approx := fun _ => [(0, 0), (10, 0), (10, 10), (0, 10)] }

/-- The square contour's quadrilateral, already ordered clockwise. -/
def squareQuad : List Point2 := [⟨0, 0⟩, ⟨10, 0⟩, ⟨10, 10⟩, ⟨0, 10⟩]

/-- Oracle bundle delivering exactly the square contour, with every
external solver failing. -/
def paperWitnessExt : Ext :=
  { trivialExt with contours := fun _ _ _ => [squareContour] }

/-- Concrete configuration accepting the square contour (no expected
aspect ratio, the whole area window, pose estimation enabled). -/
def paperWitnessCfg : PaperDetectionConfig :=
  { canny_threshold1 := 50, canny_threshold2 := 150, blur_kernel_size := 5,
    min_area_ratio := 0, max_area_ratio := 1, expected_aspect_ratio := 0,
    aspect_ratio_tolerance := 0, paper_width_mm := 210, paper_height_mm := 297,
    focal_length := 1, cx := 0, cy := 0 }

/-- Concrete configuration with aspect tolerance 3 and expected aspect
ratio 1/3: the square survives every filter (relative aspect error 2 ≤ 3)
but scores `100 * (1 - 2) = -100 < -1`. -/
def cexPaperCfg : PaperDetectionConfig :=
  { canny_threshold1 := 50, canny_threshold2 := 150, blur_kernel_size := 5,
    min_area_ratio := 0, max_area_ratio := 1, expected_aspect_ratio := 1/3,
    aspect_ratio_tolerance := 3, paper_width_mm := 210, paper_height_mm := 297,
    focal_length := 0, cx := 0, cy := 0 }

/-- Evaluation of the candidate loop on the witness configuration. -/
lemma paperBest_witness_eval :
    paperBest paperWitnessExt ⟨20, 20⟩ paperWitnessCfg = ⟨100, squareQuad, 100⟩ := by
  norm_num [paperBest, paperContours, selectBest, paperCandidate,
    order_points_clockwise, is_convex_quadrilateral, cross_product, edge_length,
    minElemIdx4, maxElemIdx4, pick4, trivialExt, paperWitnessExt,
    paperWitnessCfg, squareContour, squareQuad]

/-- Witness for C10: the selected square yields status 1 even though the
canonical homography solve and the pose solve both fail, leaving the
homography and pose vectors at zeros. -/
theorem C10_selected_always_found_witness :
    (detect_paper_internal paperWitnessExt ⟨20, 20⟩ (some paperWitnessCfg)).status = 1 ∧
    (detect_paper_internal paperWitnessExt ⟨20, 20⟩ (some paperWitnessCfg)).homography =
      List.replicate 9 0 ∧
    (detect_paper_internal paperWitnessExt ⟨20, 20⟩ (some paperWitnessCfg)).rvec =
      List.replicate 3 0 ∧
    (detect_paper_internal paperWitnessExt ⟨20, 20⟩ (some paperWitnessCfg)).area = 100 := by
  have hsel : (paperBest paperWitnessExt ⟨20, 20⟩ paperWitnessCfg).best_quad ≠ [] := by
    rw [paperBest_witness_eval]
    simp [squareQuad]
  obtain ⟨hd, hst, hhom, hpose, hfields⟩ :=
    C10_selected_always_found paperWitnessExt ⟨20, 20⟩ paperWitnessCfg hsel
  refine ⟨?_, ?_, ?_, ?_⟩
  · rw [hd]
    exact hst _
  · rw [hd]
    exact hhom _ (fun _ _ => rfl)
  · rw [hd]
    exact (hpose _ (fun _ => fun _ _ _ => rfl)).1
  · rw [hd, paperBest_witness_eval]
    rfl

/-- Counterexample to claim C8 as stated: with aspect tolerance 3 and
expected aspect ratio 1/3, the square survives every filter yet scores
`-100`, below the `-1` initialisation of `best_score`, so no candidate is
selected and the result is status 0 although a survivor exists. -/
theorem C8_counterexample :
    paperSurvivors paperWitnessExt ⟨20, 20⟩ cexPaperCfg ≠ [] ∧
    (detect_paper_internal paperWitnessExt ⟨20, 20⟩ (some cexPaperCfg)).status = 0 := by
  constructor
  · have hmem : (⟨squareQuad, 100, -100⟩ : Candidate) ∈
        paperSurvivors paperWitnessExt ⟨20, 20⟩ cexPaperCfg := by
      rw [paperSurvivors_eq]
      apply List.mem_filterMap.mpr
      refine ⟨squareContour, by simp [paperContours, paperWitnessExt, trivialExt], ?_⟩
      norm_num [paperCandidate, order_points_clockwise, is_convex_quadrilateral,
        cross_product, edge_length, minElemIdx4, maxElemIdx4, pick4, trivialExt,
        paperWitnessExt, cexPaperCfg, squareContour, squareQuad, abs_of_pos]
    intro he
    rw [he] at hmem
    exact List.not_mem_nil _ hmem
  · have hb : paperBest paperWitnessExt ⟨20, 20⟩ cexPaperCfg = ⟨-1, [], 0⟩ := by
      norm_num [paperBest, paperContours, selectBest, paperCandidate,
        order_points_clockwise, is_convex_quadrilateral, cross_product,
        edge_length, minElemIdx4, maxElemIdx4, pick4, trivialExt,
        paperWitnessExt, cexPaperCfg, squareContour, abs_of_pos]
    have hcont : ¬(paperContours paperWitnessExt cexPaperCfg).isEmpty = true := by
      simp [paperContours, paperWitnessExt, trivialExt]
    simp only [detect_paper_internal]
    rw [if_neg hcont, hb]
    rfl

/-- Witness for C8 (amended): on the witness input the square is the
selected maximal-score survivor and the result has status 1. -/
theorem C8_best_candidate_selection_witness :
    ∃ c ∈ paperSurvivors paperWitnessExt ⟨20, 20⟩ paperWitnessCfg,
      (detect_paper_internal paperWitnessExt ⟨20, 20⟩ (some paperWitnessCfg)).status = 1 ∧
      (detect_paper_internal paperWitnessExt ⟨20, 20⟩ (some paperWitnessCfg)).area = c.area ∧
      (detect_paper_internal paperWitnessExt ⟨20, 20⟩ (some paperWitnessCfg)).corners =
        [(c.quad.getD 0 ⟨0, 0⟩).x, (c.quad.getD 0 ⟨0, 0⟩).y,
         (c.quad.getD 1 ⟨0, 0⟩).x, (c.quad.getD 1 ⟨0, 0⟩).y,
         (c.quad.getD 2 ⟨0, 0⟩).x, (c.quad.getD 2 ⟨0, 0⟩).y,
         (c.quad.getD 3 ⟨0, 0⟩).x, (c.quad.getD 3 ⟨0, 0⟩).y] ∧
      ∀ c' ∈ paperSurvivors paperWitnessExt ⟨20, 20⟩ paperWitnessCfg,
        c'.score ≤ c.score := by
  have hmem : (⟨squareQuad, 100, 100⟩ : Candidate) ∈
      paperSurvivors paperWitnessExt ⟨20, 20⟩ paperWitnessCfg := by
    rw [paperSurvivors_eq]
    apply List.mem_filterMap.mpr
    refine ⟨squareContour, by simp [paperContours, paperWitnessExt, trivialExt], ?_⟩
    norm_num [paperCandidate, order_points_clockwise, is_convex_quadrilateral,
      cross_product, edge_length, minElemIdx4, maxElemIdx4, pick4, trivialExt,
      paperWitnessExt, paperWitnessCfg, squareContour, squareQuad]
  exact (C8_best_candidate_selection paperWitnessExt ⟨20, 20⟩ paperWitnessCfg).2.2
    ⟨⟨squareQuad, 100, 100⟩, hmem, by norm_num⟩

end Homography
